import Mathlib

/-!
Verification of the st-util GDB server (src/st-util/gdb-server.c) against its
natural-language specification.  Each definition is a shallow embedding of the
corresponding C function; machine integers are modelled as `Nat` with explicit
`% 2^32` where 32-bit wrap-around matters.
-/

namespace GdbServer

/-! ### Watchpoint engine (`add_data_watchpoint`, `delete_data_watchpoint`) -/

/-- Iteration helper for the shift-counting loop of `add_data_watchpoint`
over `Nat`; the fuel argument only bounds the recursion (the loop halves `i`,
so `i` itself is always enough fuel). -/
def shiftCountAux : Nat → Nat → Nat
  | 0, _ => 0
  | fuel + 1, i => if i = 0 then 0 else shiftCountAux fuel (i / 2) + 1

/-- The shift-counting loop of `add_data_watchpoint`
(`while (i) { i >>= 1; mask++; }`) over `Nat`: the number of iterations for
initial value `i = len`.  The C loop variable is `int32_t i` assigned from
the `uint32_t len`, so this Nat version is faithful only for `len < 2^31`,
where `i` stays non-negative and the arithmetic shift is the Nat halving;
the full int32 loop is `maskLoopIter` below (which never terminates for a
negative `i`), and `maskLoopIter_of_nat` proves the two agree on
`len < 2^31`. -/
def shiftCount (i : Nat) : Nat := shiftCountAux i i

/-- The mask computation of `add_data_watchpoint` on the `Nat` loop: `mask`
starts at `(uint32_t)-1 = 2^32 - 1` and is incremented (with 32-bit
wrap-around) once per loop iteration.  Faithful for `len < 2^31` only — see
`shiftCount`, `computeMask32` and `maskLoopIter_of_nat`; for larger `len`
the C loop never terminates and no mask value exists. -/
def computeMask (len : Nat) : Nat :=
  (2 ^ 32 - 1 + shiftCount len) % 2 ^ 32

/-- The acceptance test of `add_data_watchpoint`,
`(mask != (uint32_t)-1) && (mask < 16)`, on the `Nat` loop's mask; faithful
for `len < 2^31` only (see `computeMask`). -/
def maskAccepted (len : Nat) : Bool :=
  computeMask len != 2 ^ 32 - 1 && computeMask len < 16

/-- Two's-complement reinterpretation of the 32-bit `len` as the C
`int32_t i = len` of `add_data_watchpoint`. -/
def toInt32 (len : Nat) : Int :=
  if len < 2 ^ 31 then (len : Int) else (len : Int) - 2 ^ 32

/-- One `i >>= 1` on `int32_t`: the arithmetic right shift duplicates the
sign bit, i.e. floor division by 2 (the behavior of mainstream compilers for
a negative left operand). -/
def asr1 (i : Int) : Int := i / 2

/-- Runs the C mask loop `while (i) { i >>= 1; mask++; }` on the `int32_t`
value for at most `fuel` iterations: `some k` when the loop exits after `k`
iterations, `none` when it is still running.  For a negative `i` the
arithmetic shift converges to `-1` and the loop never exits, whatever the
fuel. -/
def maskLoopIter : Nat → Int → Option Nat
  | 0, i => if i = 0 then some 0 else none
  | fuel + 1, i =>
    if i = 0 then some 0
    else (maskLoopIter fuel (asr1 i)).map (fun k => k + 1)

/-- The `mask` value of `add_data_watchpoint` as computed by the int32 loop:
`(uint32_t)-1` plus the number of iterations (with 32-bit wrap-around), or
`none` when the loop does not terminate within the fuel. -/
def computeMask32 (fuel len : Nat) : Option Nat :=
  (maskLoopIter fuel (toInt32 len)).map (fun k => (2 ^ 32 - 1 + k) % 2 ^ 32)

/-- The acceptance test `(mask != (uint32_t)-1) && (mask < 16)` on the int32
loop's mask; `none` when the test is never reached. -/
def maskAccepted32 (fuel len : Nat) : Option Bool :=
  (computeMask32 fuel len).map (fun m => m != 2 ^ 32 - 1 && decide (m < 16))

/-- One DWT watchpoint table entry (`struct code_hw_watchpoint`):
address, mask and function (`0` = `WATCHDISABLED`, `5` = read, `6` = write,
`7` = access). -/
structure Watch where
  waddr : Nat
  wmask : Nat
  wfun : Nat
deriving DecidableEq, Repr

/-- The watchpoint table right after `init_data_watchpoints`: the four global
entries have `fun = WATCHDISABLED` (the globals are zero-initialised, so the
address and mask fields are `0` as well). -/
def initWatches : List Watch := List.replicate 4 ⟨0, 0, 0⟩

/-- Embeds the slot-allocation loop of `add_data_watchpoint`: the first entry
with `fun == WATCHDISABLED` receives the new watchpoint; the Bool reports
whether a free slot was found (`return 0` versus falling through). -/
def insertSlots (a mask wf : Nat) : List Watch → List Watch × Bool
  | [] => ([], false)
  | w :: ws =>
    if w.wfun = 0 then (⟨a, mask, wf⟩ :: ws, true)
    else
      let r := insertSlots a mask wf ws
      (w :: r.1, r.2)

/-- Embeds `add_data_watchpoint`: the mask is computed and checked first; only
when accepted is a free slot searched.  The Bool is `true` exactly when the
function returns `0`. -/
def addDataWatchpoint (wf a len : Nat) (s : List Watch) : List Watch × Bool :=
  if maskAccepted len then insertSlots a (computeMask len) wf s else (s, false)

/-- Embeds `delete_data_watchpoint`: the first entry with matching address and
non-disabled function is disabled; the Bool is `true` exactly when the function
returns `0`. -/
def deleteSlots (a : Nat) : List Watch → List Watch × Bool
  | [] => ([], false)
  | w :: ws =>
    if w.waddr = a ∧ w.wfun ≠ 0 then ({ w with wfun := 0 } :: ws, true)
    else
      let r := deleteSlots a ws
      (w :: r.1, r.2)

/-- A watchpoint table operation: `Z2/3/4` insert or `z2/3/4` remove. -/
inductive WOp
  | ins (wf a len : Nat)
  | del (a : Nat)
deriving DecidableEq, Repr

/-- Applies one watchpoint operation to the table. -/
def applyWOp (s : List Watch) : WOp → List Watch
  | .ins wf a len => (addDataWatchpoint wf a len s).1
  | .del a => (deleteSlots a s).1

/-- Runs a sequence of watchpoint operations. -/
def runWOps (s : List Watch) : List WOp → List Watch
  | [] => s
  | op :: ops => runWOps (applyWOp s op) ops

/-- Number of active (non-disabled) entries at address `a`. -/
def activeCount (a : Nat) : List Watch → Nat
  | [] => 0
  | w :: ws => (if w.wfun ≠ 0 ∧ w.waddr = a then 1 else 0) + activeCount a ws

/-- The invariant claimed for the watchpoint table: at most one active entry
per address. -/
def atMostOnePerAddr (s : List Watch) : Prop := ∀ a, activeCount a s ≤ 1

/-- An operation sequence never inserts at an address that already has an
active entry (duplicate-free inserts). -/
def freshInserts (s : List Watch) : List WOp → Bool
  | [] => true
  | .ins wf a len :: ops =>
    (activeCount a s == 0) && freshInserts (applyWOp s (.ins wf a len)) ops
  | .del a :: ops => freshInserts (applyWOp s (.del a)) ops

/-! ### Breakpoint engine (`update_code_breakpoint`, `has_breakpoint`) -/

/-- One FPB breakpoint table entry (`struct code_hw_breakpoint`): address and
sub-slot bitset (`CODE_BREAK_LOW = 1`, `CODE_BREAK_HIGH = 2`,
`CODE_BREAK_REMAP = 4`; `0` means the slot is free). -/
structure BpEntry where
  addr : Nat
  btype : Nat
deriving DecidableEq, Repr

/-- The `FP_CTRL` revision value for v1 units (`CODE_BREAK_REV_V1`). -/
def CODE_BREAK_REV_V1 : Nat := 0

/-- The breakpoint shadow table after `init_code_breakpoints` on first use:
`n = code_break_num` slots with `type = 0` (the global array is
zero-initialised, so the address fields are 0 as well). -/
def initBreaks (n : Nat) : List BpEntry := List.replicate n ⟨0, 0⟩

/-- Embeds the slot-search loop of `update_code_breakpoint`: the first index
whose entry has a matching `fpb_addr`, or — when setting — whose slot is
free. -/
def findSlot (fpb : Nat) (set : Bool) : List BpEntry → Option Nat
  | [] => none
  | e :: es =>
    if fpb == e.addr || (set && e.btype == 0) then some 0
    else (findSlot fpb set es).map (· + 1)

/-- Replaces the entry at index `i` of the table. -/
def applyAt : Nat → (BpEntry → BpEntry) → List BpEntry → List BpEntry
  | _, _, [] => []
  | 0, f, e :: es => f e :: es
  | i + 1, f, e :: es => e :: applyAt i f es

/-- Embeds `update_code_breakpoint` acting on the shadow table; `none` models
the `-1` error return (odd address, or setting with neither a matching nor a
free slot).  `rev` is `code_break_rev`; on v1 the slot address is
`addr & 0x1FFFFFFC` and the sub-slot is picked by `addr & 2`, on v2 the full
address is used with `REMAP`.  The mirroring write to `FP_COMPn` has no
effect on the table and is not modelled. -/
def updateCodeBreakpoint (rev : Nat) (st : List BpEntry) (addr : Nat) (set : Bool) :
    Option (List BpEntry) :=
  if addr &&& 1 ≠ 0 then none
  else
    let btype := if rev = CODE_BREAK_REV_V1 then (if addr &&& 2 ≠ 0 then 2 else 1) else 4
    let fpb := if rev = CODE_BREAK_REV_V1 then addr &&& 0x1FFFFFFC else addr
    match findSlot fpb set st with
    | none => if set then none else some st
    | some i =>
      some (applyAt i (fun e =>
        { addr := fpb
          btype := if set then e.btype ||| btype
                   else e.btype &&& ((2 ^ 32 - 1) ^^^ btype) }) st)

/-- Embeds the `Z1` packet wiring in `serve`: a negative return becomes reply
`E00`, otherwise `OK`. -/
def z1InsertReply (rev : Nat) (st : List BpEntry) (addr : Nat) : String × List BpEntry :=
  match updateCodeBreakpoint rev st addr true with
  | none => ("E00", st)
  | some st' => ("OK", st')

/-- Number of occupied slots (`type != 0`) in the breakpoint table. -/
def occupiedSlots (st : List BpEntry) : Nat :=
  st.countP (fun e => e.btype != 0)

/-- Embeds `has_breakpoint`: true when some table entry has the given address.
Note the C loop tests only the address field and ignores whether the slot is
still active. -/
def hasBreakpoint (st : List BpEntry) (a : Nat) : Bool :=
  st.any (fun e => e.addr == a)

/-! ### Semihosting trap loop (the halted branch inside the `c` command) -/

/-- The little-endian half-word the C code memcpys from `q_buf[offset]`,
i.e. the bytes of target memory at `pc` and `pc + 1` (the buffer was filled
starting at `pc - pc % 4`, and `offset = pc % 4`). -/
def trapInsn (mem : Nat → Nat) (pc : Nat) : Nat :=
  mem pc % 256 + 256 * (mem (pc + 1) % 256)

/-- Outcome of the halted branch of the trap loop: break out (reply `S05`),
or service the semihosting call — write `r0new` to `r0`, write `pcNew` to the
program counter, `cache_sync`, resume. -/
inductive TrapOutcome
  | stop
  | service (r0new pcNew : Nat)
deriving DecidableEq, Repr

/-- Embeds the `TARGET_HALTED` branch of the `c` trap loop in `serve`:
`semih` is `st->semihosting`, `breaks` the breakpoint shadow table, `readOk`
the success of `stlink_read_mem32`, `mem` the target byte memory, `dispatch`
the external semihosting handler returning the new `r0`.  The first component
is the length in bytes passed to `stlink_read_mem32` (`none` when the branch
breaks before any read: the C tests `!st->semihosting` first). -/
def trapHalted (semih : Bool) (breaks : List BpEntry) (readOk : Bool)
    (mem : Nat → Nat) (r0 r1 pc : Nat) (dispatch : Nat → Nat → Nat) :
    Option Nat × TrapOutcome :=
  if semih = false then (none, .stop)
  else
    let off := pc % 4
    let addr := pc - off
    let len := if off > 2 then 8 else 4
    if readOk = false then (some len, .stop)
    else if trapInsn mem pc = 0xBEAB ∧ hasBreakpoint breaks addr = false then
      (some len, .service (dispatch r0 r1) (pc + 2))
    else (some len, .stop)

/-! ### Probe-operation traces of the halt-to-run paths -/

/-- Probe operations observable on the paths relevant to cache coherency. -/
inductive Ev
  | cacheSync
  | run
  | step
  | forceDebug
  | statusPoll
  | readRegs
  | readMem
  | semihost
  | writeReg
deriving DecidableEq, Repr

/-- Trace of the `s` (step) handler: `cache_sync(sl); stlink_step(sl)`. -/
def stepTrace : List Ev := [Ev.cacheSync, Ev.step]

/-- Trace of the monitor `resume` handler inside `qRcmd`:
`cache_sync(sl); stlink_run(sl, RUN_NORMAL)`. -/
def rcmdResumeTrace : List Ev := [Ev.cacheSync, Ev.run]

/-- One iteration's worth of environment input for the `c` trap loop. -/
structure Poll where
  interrupt : Bool
  halted : Bool
  readOk : Bool
  isTrap : Bool
deriving DecidableEq, Repr

/-- Probe-operation trace of the trap loop in the `c` handler, driven by a
list of poll outcomes; the loop breaks on interrupt or on a halt that is not
a serviced semihosting trap, and the trace of a finite prefix of poll
outcomes is produced. -/
def continueLoop (semih : Bool) : List Poll → List Ev
  | [] => []
  | p :: ps =>
    if p.interrupt then [Ev.forceDebug]
    else if p.halted then
      if semih = false then [Ev.statusPoll]
      else if p.readOk = false then [Ev.statusPoll, Ev.readRegs, Ev.readMem]
      else if p.isTrap then
        Ev.statusPoll :: Ev.readRegs :: Ev.readMem :: Ev.semihost :: Ev.writeReg ::
          Ev.writeReg :: Ev.cacheSync :: Ev.run :: continueLoop semih ps
      else [Ev.statusPoll, Ev.readRegs, Ev.readMem]
    else Ev.statusPoll :: continueLoop semih ps

/-- Full probe trace of the `c` (continue) handler: `cache_sync; stlink_run`,
then the trap loop. -/
def continueTrace (semih : Bool) (ps : List Poll) : List Ev :=
  Ev.cacheSync :: Ev.run :: continueLoop semih ps

/-- A trace is resume-guarded when it does not start with a run or step and
every run or step event is immediately preceded by a `cache_sync`
invocation. -/
def resumeGuarded (tr : List Ev) : Prop :=
  (∀ e ∈ tr.head?, e ≠ Ev.run ∧ e ≠ Ev.step) ∧
  List.Chain' (fun x y => (y = Ev.run ∨ y = Ev.step) → x = Ev.cacheSync) tr

/-! ### Flash staging (`flash_populate`, `flash_go`) -/

/-- One staged flash block (`struct flash_block`); the C linked list is a
Lean list. -/
structure FlashBlock where
  addr : Nat
  length : Nat
  data : List Nat
deriving DecidableEq, Repr

/-- Overlay `src` into `dst` starting at position `pos`: the effect of
`memcpy(dst + pos, src, src.length)` when the copy fits inside `dst`. -/
def overlay (dst : List Nat) (pos : Nat) (src : List Nat) : List Nat :=
  dst.take pos ++ src ++ dst.drop (pos + src.length)

/-- Embeds the per-block body of the `flash_populate` loop: when the write
range `[a, a + payload.length)` intersects the block `[X, Y)` (the C test is
`a < Y && b > X`), the code runs `memcpy(fb->data + start, data, end - start)`
— the source is the START of the payload, not the intersection's offset into
it.  The second component is `some` of the contribution to `fit_length` when
the block intersects (`fit_blocks` is incremented), `none` otherwise. -/
def populateBlock (a : Nat) (payload : List Nat) (fb : FlashBlock) :
    FlashBlock × Option Nat :=
  let X := fb.addr
  let Y := fb.addr + fb.length
  let b := a + payload.length
  if a < Y ∧ b > X then
    let s := max a X - X
    let e := min b Y - X
    ({ fb with data := overlay fb.data s (payload.take (e - s)) }, some (e - s))
  else (fb, none)

/-- Modelled from the spec's words, for comparison with `populateBlock`
(claim C3): the copy into `B.data[max(a,X)-X : min(b,Y)-X]` takes the payload
bytes from the corresponding offset `max(a,X) - a` of `data`. -/
def specPopulateBlock (a : Nat) (payload : List Nat) (fb : FlashBlock) : FlashBlock :=
  let X := fb.addr
  let Y := fb.addr + fb.length
  let b := a + payload.length
  if a < Y ∧ b > X then
    let s := max a X - X
    let e := min b Y - X
    { fb with data := overlay fb.data s ((payload.drop (max a X - a)).take (e - s)) }
  else fb

/-- Embeds `flash_populate`: every staged block intersecting the write range
is overlaid; `none` models the `-1` error return when no block intersects; a
total intersected length shorter than the payload only warns. -/
def flashPopulate (a : Nat) (payload : List Nat) (root : List FlashBlock) :
    Option (List FlashBlock) :=
  let rs := root.map (populateBlock a payload)
  if rs.countP (fun r => r.2.isSome) = 0 then none
  else some (rs.map (fun r => r.1))

/-- One commit run's view of the flash primitives of the probe: per-page erase
status, loader start status, per-page loader-write status, and the
address-dependent page size (`stlink_calculate_pagesize`). -/
structure FlashProbe where
  eraseOk : Nat → Bool
  loaderStartOk : Bool
  writeOk : Nat → Bool
  pagesize : Nat → Nat

/-- Embeds one per-block page loop of `flash_go` (both the erase pass and the
write pass step `page` by the page size recomputed at the current page).  The
fuel bounds the recursion; the C loops forever when the probe reports page
size 0, which the model maps to failure when the fuel runs out. -/
def pageLoop (ok : Nat → Bool) (pagesize : Nat → Nat) : Nat → Nat → Nat → Bool
  | _, _, 0 => false
  | pos, stop, fuel + 1 =>
    if pos < stop then
      if ok pos then pageLoop ok pagesize (pos + pagesize pos) stop fuel else false
    else true

/-- Embeds `flash_go`: erase every page of every block, start the loader,
write every page of every block (any primitive failure jumps to the shared
`error:` label).  On every path the code then frees the whole staging list
and sets `flash_root = NULL`; the second component is the staging list after
the call.  The Bool is `true` exactly when the commit succeeded. -/
def flashGo (p : FlashProbe) (root : List FlashBlock) : Bool × List FlashBlock :=
  let erased := root.all
    (fun fb => pageLoop p.eraseOk p.pagesize fb.addr (fb.addr + fb.length) (fb.length + 1))
  let committed :=
    if erased = false then false
    else if p.loaderStartOk = false then false
    else root.all
      (fun fb => pageLoop p.writeOk p.pagesize fb.addr (fb.addr + fb.length) (fb.length + 1))
  (committed, [])

/-- Embeds the `vFlashDone` wiring in `serve`: reply `E08` when `flash_go`
failed, `OK` otherwise; the second component is the staging list after the
command. -/
def flashDoneReply (p : FlashProbe) (root : List FlashBlock) : String × List FlashBlock :=
  ((if (flashGo p root).1 then "OK" else "E08"), (flashGo p root).2)

/-! ### qXfer document chunking -/

/-- Embeds the `qXfer:<type>:read` reply assembly in `serve`, for a document
given as its list of bytes: `addr` and `len` are the parsed 32-bit offset and
length.  The C truncates `length` to `data_length - addr` (with 32-bit
wrap-around) when `addr + length` exceeds the document length, replies a bare
`l` (0x6c) when the truncated length is 0, and otherwise replies `m` (0x6d)
followed by the bytes that `strncpy(&reply[1], data, length)` takes — from
the START of the document, not from offset `addr`. -/
def qXferReply (doc : List Nat) (addr len : Nat) : List Nat :=
  let dl := doc.length
  let len2 := if (addr + len) % 2 ^ 32 > dl then (dl + 2 ^ 32 - addr) % 2 ^ 32 else len
  if len2 = 0 then [0x6c]
  else 0x6d :: doc.take len2

/-! ### vFlashWrite binary un-escape -/

/-- Embeds the un-escape loop of the `vFlashWrite` handler: byte `0x7d`
escapes the next byte, which is consumed and XORed with `0x20`.  When an
escape byte is the last payload byte, the C reads `data[i]` at
`i = data_length`, one past the payload; this total embedding returns `none`
there, so the loop stays within the payload bounds exactly when the result is
`some`. -/
def unescape : List Nat → Option (List Nat)
  | [] => some []
  | [b] => if b = 0x7d then none else some [b]
  | b :: c :: rest =>
    if b = 0x7d then (unescape rest).map (fun ds => (c ^^^ 0x20) :: ds)
    else (unescape (c :: rest)).map (fun ds => b :: ds)

/-! ### Per-command probe-failure policy -/

/-- Embeds the `s` (step) handler: on `stlink_step` failure the reply is
`E00` and `critical_error` is set, which closes the session after the reply;
otherwise `S05`.  The second component is the critical flag. -/
def handleStep (stepOk : Bool) : String × Bool :=
  if stepOk then ("S05", false) else ("E00", true)

/-- Embeds the reply logic of the `P` (write one register) handler: a
recognised register id replies `OK` regardless of the probe status (the
nonzero `ret` is only logged); an unrecognised id replies `E00`.
`critical_error` is never set. -/
def handlePacketP (_writeOk : Bool) (reg : Nat) : String × Bool :=
  if reg < 16 ∨ (0x19 ≤ reg ∧ reg ≤ 0x1F) ∨ (0x20 ≤ reg ∧ reg < 0x40) ∨ reg = 0x40 then
    ("OK", false)
  else ("E00", false)

/-- Embeds the `G` (write all registers) handler reply: `OK` regardless of
the sixteen `stlink_write_reg` statuses (failures are only logged). -/
def handlePacketG (_writeOks : List Bool) : String × Bool := ("OK", false)

/-- Embeds the `R` (reset) handler reply: `OK` regardless of the
`stlink_reset` status (a failure is only logged). -/
def handlePacketR (_resetOk : Bool) : String × Bool := ("OK", false)

/-- Embeds the `M` (memory write) handler reply: `E00` exactly when the
accumulated `err` of the region writes is nonzero. -/
def handlePacketM (err : Bool) : String × Bool :=
  ((if err then "E00" else "OK"), false)

/-- Embeds the `c` (continue) handler's final reply: `S05` regardless of the
`stlink_run` status (a run failure is only logged). -/
def handlePacketC (_runOk : Bool) : String × Bool := ("S05", false)

/-- Embeds the `m` (memory read) handler's payload: when `stlink_read_mem32`
fails, `count` is forced to 0 and the reply is the empty payload (not
`E00`). -/
def handlePacketMemRead (readOk : Bool) (payload : List Nat) : List Nat × Bool :=
  ((if readOk then payload else []), false)

/-- Embeds the monitor `resume` reply inside `qRcmd`: `E00` when `stlink_run`
failed, `OK` otherwise; never critical. -/
def rcmdResumeReply (runOk : Bool) : String × Bool :=
  ((if runOk then "OK" else "E00"), false)

/-- Embeds the monitor `halt` reply inside `qRcmd`: `E00` when
`stlink_force_debug` failed, `OK` otherwise; never critical. -/
def rcmdHaltReply (forceOk : Bool) : String × Bool :=
  ((if forceOk then "OK" else "E00"), false)

/-- Embeds the monitor `reset` reply inside `qRcmd`: the reply is set to
`E00` when `stlink_force_debug` or `stlink_reset(RESET_SOFT_AND_HALT)`
failed, and `OK` when both succeeded (the handler also re-runs the
breakpoint and watchpoint table initialisation, modelled by `initBreaks` and
`initWatches`); never critical. -/
def rcmdResetReply (forceOk resetOk : Bool) : String × Bool :=
  ((if forceOk && resetOk then "OK" else "E00"), false)

/-- Embeds the `g` (read all registers) handler: the reply is the 16-register
hex payload formatted from whatever the register struct holds after the call,
regardless of the `stlink_read_all_regs` status (a failure is only logged).
The hex formatting itself is not modelled; what the failure policy turns on
is that the payload depends only on the struct contents, never becoming
`E00`, and that the critical flag is never set. -/
def handlePacketGRead (_readOk : Bool) (regs : List Nat) : List Nat × Bool :=
  (regs, false)

/-- Embeds the `p` (read one register) handler: for a recognised id the reply
is the 8-digit hex of whatever value the register struct holds (`some val`;
the C prints `0xDEADDEAD` when nothing overwrote it), regardless of the read
status, which is only logged; an unrecognised id replies `E00` (`none`).
Never critical. -/
def handlePacketPRead (_readOk : Bool) (reg : Nat) (val : Nat) : Option Nat × Bool :=
  if reg < 16 ∨ (0x19 ≤ reg ∧ reg ≤ 0x1F) ∨ (0x20 ≤ reg ∧ reg < 0x40) ∨ reg = 0x40 then
    (some val, false)
  else (none, false)

end GdbServer

namespace GdbServer

/-! ### Theorems about the watchpoint engine -/

theorem shiftCountAux_zero (fuel : Nat) : shiftCountAux fuel 0 = 0 := by
  cases fuel with
  | zero => rfl
  | succ fuel => simp [shiftCountAux]

theorem shiftCountAux_eq (fuel i : Nat) (hpos : 0 < i) (hfuel : i ≤ fuel) :
    shiftCountAux fuel i = Nat.log2 i + 1 := by
  induction fuel generalizing i with
  | zero => omega
  | succ fuel ih =>
    rw [shiftCountAux, if_neg (by omega)]
    rcases Nat.lt_or_ge i 2 with h2 | h2
    · have hi : i = 1 := by omega
      subst hi
      have : Nat.log2 1 = 0 := by rw [Nat.log2]; norm_num
      simp [shiftCountAux_zero, this]
    · have hpos2 : 0 < i / 2 := Nat.div_pos h2 (by decide)
      have hle : i / 2 ≤ fuel := by
        have := Nat.div_lt_self hpos (show 1 < 2 by decide)
        omega
      rw [ih (i / 2) hpos2 hle]
      have hl : Nat.log2 i = Nat.log2 (i / 2) + 1 := by
        rw [Nat.log2]; simp [h2]
      omega

theorem shiftCount_eq_log2_succ (len : Nat) (h : 0 < len) :
    shiftCount len = Nat.log2 len + 1 :=
  shiftCountAux_eq len len h (Nat.le_refl len)

theorem computeMask_eq_log2 (len : Nat) (h : 0 < len) (hlen : len < 2 ^ 32) :
    computeMask len = Nat.log2 len := by
  have hlog : Nat.log2 len < 32 := by
    rw [Nat.log2_lt (by omega)]; exact hlen
  rw [computeMask, shiftCount_eq_log2_succ len h]
  have : 2 ^ 32 - 1 + (Nat.log2 len + 1) = 2 ^ 32 + Nat.log2 len := by omega
  rw [this, Nat.add_mod_left, Nat.mod_eq_of_lt (by omega)]

theorem maskAccepted_iff (len : Nat) (hlen : len < 2 ^ 32) :
    maskAccepted len = true ↔ 0 < len ∧ len < 2 ^ 16 := by
  rcases Nat.eq_zero_or_pos len with rfl | hpos
  · constructor
    · intro h; exact absurd h (by decide)
    · intro h; omega
  · have hm := computeMask_eq_log2 len hpos hlen
    have hlog : Nat.log2 len < 32 := by rw [Nat.log2_lt (by omega)]; exact hlen
    rw [maskAccepted, hm]
    constructor
    · intro h
      have h16 : Nat.log2 len < 16 := by
        have := (Bool.and_eq_true _ _).mp h
        simpa using this.2
      exact ⟨hpos, by rwa [← Nat.log2_lt (by omega)]⟩
    · intro h
      have h16 : Nat.log2 len < 16 := by rw [Nat.log2_lt (by omega)]; exact h.2
      apply (Bool.and_eq_true _ _).mpr
      constructor
      · simp only [bne_iff_ne, ne_eq]
        omega
      · simpa using h16

theorem activeCount_initWatches (a : Nat) : activeCount a initWatches = 0 := by
  have h : ∀ n, activeCount a (List.replicate n ⟨0, 0, 0⟩) = 0 := by
    intro n
    induction n with
    | zero => rfl
    | succ n ih => rw [List.replicate_succ, activeCount, if_neg (by simp), ih]
  exact h 4

theorem insertSlots_count_other (a' a m wf : Nat) (s : List Watch) (h : a' ≠ a) :
    activeCount a' (insertSlots a m wf s).1 = activeCount a' s := by
  induction s with
  | nil => rfl
  | cons w ws ih =>
    rw [insertSlots]
    by_cases hw : w.wfun = 0
    · rw [if_pos hw]
      show activeCount a' (⟨a, m, wf⟩ :: ws) = activeCount a' (w :: ws)
      simp only [activeCount]
      rw [if_neg (fun hc => h (Eq.symm hc.2)), if_neg (by simp [hw])]
    · rw [if_neg hw]
      show (if w.wfun ≠ 0 ∧ w.waddr = a' then 1 else 0) + activeCount a' (insertSlots a m wf ws).1
           = (if w.wfun ≠ 0 ∧ w.waddr = a' then 1 else 0) + activeCount a' ws
      rw [ih]

theorem insertSlots_count_self (a m wf : Nat) (s : List Watch) :
    activeCount a (insertSlots a m wf s).1 ≤ activeCount a s + 1 := by
  induction s with
  | nil => simp [insertSlots, activeCount]
  | cons w ws ih =>
    rw [insertSlots]
    by_cases hw : w.wfun = 0
    · rw [if_pos hw]
      show activeCount a (⟨a, m, wf⟩ :: ws) ≤ activeCount a (w :: ws) + 1
      simp only [activeCount]
      have hw2 : (if w.wfun ≠ 0 ∧ w.waddr = a then 1 else 0) = 0 := if_neg (by simp [hw])
      rw [hw2]
      split <;> omega
    · rw [if_neg hw]
      show (if w.wfun ≠ 0 ∧ w.waddr = a then 1 else 0) + activeCount a (insertSlots a m wf ws).1
           ≤ ((if w.wfun ≠ 0 ∧ w.waddr = a then 1 else 0) + activeCount a ws) + 1
      omega

theorem deleteSlots_count_le (a a' : Nat) (s : List Watch) :
    activeCount a' (deleteSlots a s).1 ≤ activeCount a' s := by
  induction s with
  | nil => simp [deleteSlots]
  | cons w ws ih =>
    rw [deleteSlots]
    by_cases hw : w.waddr = a ∧ w.wfun ≠ 0
    · rw [if_pos hw]
      show activeCount a' ({ w with wfun := 0 } :: ws) ≤ activeCount a' (w :: ws)
      simp only [activeCount]
      rw [if_neg (by simp)]
      omega
    · rw [if_neg hw]
      show (if w.wfun ≠ 0 ∧ w.waddr = a' then 1 else 0) + activeCount a' (deleteSlots a ws).1
           ≤ (if w.wfun ≠ 0 ∧ w.waddr = a' then 1 else 0) + activeCount a' ws
      omega

theorem runWOps_preserve (ops : List WOp) : ∀ s : List Watch,
    atMostOnePerAddr s → freshInserts s ops = true →
    atMostOnePerAddr (runWOps s ops) := by
  induction ops with
  | nil => intro s hP _; exact hP
  | cons op ops ih =>
    intro s hP hfresh
    cases op with
    | ins wf a len =>
      simp only [freshInserts, Bool.and_eq_true, beq_iff_eq] at hfresh
      obtain ⟨h1, h2⟩ := hfresh
      apply ih _ _ h2
      intro a'
      simp only [applyWOp, addDataWatchpoint]
      by_cases hm : maskAccepted len
      · simp only [if_pos hm]
        by_cases ha : a' = a
        · subst ha
          have hs := insertSlots_count_self a' (computeMask len) wf s
          omega
        · rw [insertSlots_count_other a' a _ _ s ha]
          exact hP a'
      · simp only [if_neg hm]
        exact hP a'
    | del a =>
      simp only [freshInserts] at hfresh
      apply ih _ _ hfresh
      intro a'
      exact Nat.le_trans (deleteSlots_count_le a a' s) (hP a')

/-- Claim C8 (counterexample): the invariant "at most one active entry per
address" fails on the code: inserting the same watchpoint address twice from
the initialized table occupies two slots, both active at address 100. -/
theorem c8_counterexample :
    ¬ atMostOnePerAddr (runWOps initWatches [WOp.ins 6 100 4, WOp.ins 6 100 4]) := by
  intro h
  have h100 := h 100
  revert h100
  decide

/-- Claim C8 (amended): for every sequence of watchpoint insert and remove
operations starting from an initialized table in which no insertion targets an
address that already has an active entry, the watchpoint table contains at
most one active (non-disabled) entry per address.  (`add_data_watchpoint`
performs no duplicate check, so a duplicate insert occupies a second slot.) -/
theorem c8_amended (ops : List WOp) (h : freshInserts initWatches ops = true) :
    atMostOnePerAddr (runWOps initWatches ops) :=
  runWOps_preserve ops initWatches (fun a => by rw [activeCount_initWatches a]; omega) h

/-- Witness for `c8_amended` at a concrete operation sequence. -/
theorem c8_amended_witness :
    atMostOnePerAddr (runWOps initWatches [WOp.ins 6 100 4, WOp.del 100, WOp.ins 7 100 8]) :=
  c8_amended [WOp.ins 6 100 4, WOp.del 100, WOp.ins 7 100 8] (by decide)

theorem maskLoopIter_neg (fuel : Nat) : ∀ i : Int, i < 0 → maskLoopIter fuel i = none := by
  induction fuel with
  | zero =>
    intro i hi
    simp only [maskLoopIter]
    rw [if_neg (by omega)]
  | succ fuel ih =>
    intro i hi
    simp only [maskLoopIter]
    rw [if_neg (by omega), ih (asr1 i) (by simp only [asr1]; omega)]
    rfl

theorem maskLoopIter_of_nat (fuel : Nat) : ∀ i : Nat, i ≤ fuel →
    maskLoopIter fuel ((i : Nat) : Int) = some (shiftCount i) := by
  induction fuel with
  | zero =>
    intro i hi
    have h0 : i = 0 := by omega
    subst h0
    rfl
  | succ fuel ih =>
    intro i hi
    by_cases hi0 : i = 0
    · subst hi0; rfl
    · have hcast : ((i : Nat) : Int) ≠ 0 := by exact_mod_cast hi0
      simp only [maskLoopIter]
      rw [if_neg hcast]
      have hshift : asr1 ((i : Nat) : Int) = ((i / 2 : Nat) : Int) := by
        simp only [asr1]; omega
      rw [hshift, ih (i / 2) (by omega)]
      show some (shiftCount (i / 2) + 1) = some (shiftCount i)
      congr 1
      rcases Nat.lt_or_ge i 2 with h2 | h2
      · have h1 : i = 1 := by omega
        subst h1
        rfl
      · have hs1 := shiftCount_eq_log2_succ i (by omega)
        have hs2 := shiftCount_eq_log2_succ (i / 2) (Nat.div_pos h2 (by decide))
        have hl : Nat.log2 i = Nat.log2 (i / 2) + 1 := by
          rw [Nat.log2]; simp [h2]
        omega

/-- Claim C2 (counterexample): the claim "the programmed mask equals the
smallest m such that (1<<m) >= len" fails at `len = 3` (the int32 loop
programs mask 1, but `1 <<< 1 = 2 < 3`; the smallest such m is 2), and "the
insertion is rejected exactly when that mask would be 16 or more (e.g.
len=32769 is rejected)" fails at `len = 32769`: the mask check accepts it
with mask 15 and the insertion into a free table succeeds. -/
theorem c2_counterexample :
    computeMask32 64 3 = some 1 ∧ 2 ^ 1 < 3 ∧
    maskAccepted32 64 32769 = some true ∧
    (addDataWatchpoint 6 100 32769 initWatches).2 = true := by
  refine ⟨by decide, by decide, by decide, by decide⟩

/-- Claim C2 (amended): for every watchpoint insertion with 32-bit length
`len < 2^31`, the mask loop terminates (any fuel of at least `len`
iterations suffices) and the programmed mask equals the largest m such that
`(1<<m) <= len`, i.e. `floor(log2 len)` (`len=1` gives 0, `len=2..3` give 1,
`len=4..7` give 2, ..., `len=32768..65535` give 15), and the mask check
rejects the insertion exactly when `len = 0` or `len >= 65536` — on a table
with a free slot the insertion succeeds iff the mask check accepts; for
`len` in `[2^31, 2^32)` the `int32_t` loop variable is negative and the
arithmetic shift never reaches 0, so the loop does not terminate for any
fuel (the server hangs instead of rejecting or programming a mask). -/
theorem c2_amended (len : Nat) (hlen : len < 2 ^ 32) :
    (len < 2 ^ 31 →
      (∀ fuel, len ≤ fuel → computeMask32 fuel len = some (computeMask len)) ∧
      (0 < len → computeMask len = Nat.log2 len ∧
        2 ^ computeMask len ≤ len ∧ len < 2 ^ (computeMask len + 1)) ∧
      (maskAccepted len = true ↔ 0 < len ∧ len < 2 ^ 16) ∧
      (∀ wf a, (addDataWatchpoint wf a len initWatches).2 = maskAccepted len)) ∧
    (2 ^ 31 ≤ len → ∀ fuel, computeMask32 fuel len = none) := by
  constructor
  · intro hsmall
    refine ⟨?_, ?_, maskAccepted_iff len hlen, ?_⟩
    · intro fuel hfuel
      have ht : toInt32 len = ((len : Nat) : Int) := by
        simp only [toInt32]
        rw [if_pos hsmall]
      simp only [computeMask32, ht]
      rw [maskLoopIter_of_nat fuel len hfuel]
      rfl
    · intro hpos
      have hm := computeMask_eq_log2 len hpos hlen
      refine ⟨hm, ?_, ?_⟩
      · rw [hm]; exact Nat.log2_self_le (by omega)
      · rw [hm]; exact Nat.lt_log2_self
    · intro wf a
      cases hmc : maskAccepted len
      · rw [addDataWatchpoint, if_neg (by simp [hmc])]
      · rw [addDataWatchpoint, if_pos hmc]
        rfl
  · intro hbig fuel
    have hneg : toInt32 len < 0 := by
      simp only [toInt32]
      rw [if_neg (by omega)]
      omega
    simp only [computeMask32]
    rw [maskLoopIter_neg fuel (toInt32 len) hneg]
    rfl

/-- Witness for `c2_amended` at `len = 32769` (terminating, accepted) and
`len = 2^31` (diverging). -/
theorem c2_amended_witness :
    computeMask32 32769 32769 = some (computeMask 32769) ∧
    (maskAccepted 32769 = true ↔ 0 < 32769 ∧ 32769 < 2 ^ 16) ∧
    computeMask32 5 (2 ^ 31) = none := by
  have hs := (c2_amended 32769 (by decide)).1 (by decide)
  have hb := (c2_amended (2 ^ 31) (by decide)).2 (Nat.le_refl _)
  exact ⟨hs.1 32769 (Nat.le_refl _), hs.2.2.1, hb 5⟩

/-! ### Theorems about the breakpoint engine -/

theorem testBit_four_mul_add_two (k i : Nat) :
    Nat.testBit (4 * k + 2) (i + 2) = Nat.testBit (4 * k) (i + 2) := by
  rw [Nat.testBit_to_div_mod, Nat.testBit_to_div_mod]
  have h4 : (2 : Nat) ^ (i + 2) = 4 * 2 ^ i := by ring
  rw [h4, ← Nat.div_div_eq_div_mul, ← Nat.div_div_eq_div_mul]
  have ha : (4 * k + 2) / 4 = k := by omega
  have hb : (4 * k) / 4 = k := by omega
  rw [ha, hb]

theorem fpb_addr_add_two (a : Nat) (ha : a % 4 = 0) :
    (a + 2) &&& 0x1FFFFFFC = a &&& 0x1FFFFFFC := by
  obtain ⟨k, rfl⟩ : ∃ k, a = 4 * k := ⟨a / 4, by omega⟩
  apply Nat.eq_of_testBit_eq
  intro i
  match i with
  | 0 =>
    rw [Nat.testBit_land, Nat.testBit_land]
    have hm : (0x1FFFFFFC : Nat).testBit 0 = false := by decide
    rw [hm, Bool.and_false, Bool.and_false]
  | 1 =>
    rw [Nat.testBit_land, Nat.testBit_land]
    have hm : (0x1FFFFFFC : Nat).testBit 1 = false := by decide
    rw [hm, Bool.and_false, Bool.and_false]
  | (i + 2) =>
    rw [Nat.testBit_land, Nat.testBit_land, testBit_four_mul_add_two]

theorem land_one_even (a : Nat) (h : a % 2 = 0) : a &&& 1 = 0 := by
  rw [Nat.and_one_is_mod, h]

theorem land_two_mul_four (k : Nat) : (4 * k) &&& 2 = 0 := by
  show (4 * k) &&& 2 ^ 1 = 0
  rw [Nat.and_two_pow]
  have ht : (4 * k).testBit 1 = false := by
    rw [Nat.testBit_to_div_mod]
    have : (4 * k) / 2 = 2 * k := by omega
    rw [this]
    simp [Nat.mul_mod_right]
  rw [ht]
  rfl

theorem land_two_mul_four_add_two (k : Nat) : (4 * k + 2) &&& 2 = 2 := by
  show (4 * k + 2) &&& 2 ^ 1 = 2
  rw [Nat.and_two_pow]
  have ht : (4 * k + 2).testBit 1 = true := by
    rw [Nat.testBit_to_div_mod]
    have : (4 * k + 2) / 2 = 2 * k + 1 := by omega
    rw [this]
    simp [Nat.mul_add_mod]
  rw [ht]
  rfl

theorem occupiedSlots_replicate_free (n : Nat) :
    occupiedSlots (List.replicate n (⟨0, 0⟩ : BpEntry)) = 0 := by
  induction n with
  | zero => rfl
  | succ n ih =>
    rw [List.replicate_succ]
    simp [occupiedSlots, List.countP_cons, ih]

/-- Claim C7: with FPB revision v1, starting from an empty breakpoint table
(of at least one slot), inserting breakpoints at `a` and `a+2` where
`a % 4 = 0` occupies exactly one table slot — both half-words share the slot
whose address is `a & 0x1FFFFFFC` — and a subsequent third insertion at any
further (necessarily odd, hence misaligned) address inside the same word
returns the error reply `E00`. -/
theorem c7_v1_one_slot (n a : Nat) (ha : a % 4 = 0) :
    ∃ st1 st2 : List BpEntry,
      updateCodeBreakpoint CODE_BREAK_REV_V1 (initBreaks (n + 1)) a true = some st1 ∧
      updateCodeBreakpoint CODE_BREAK_REV_V1 st1 (a + 2) true = some st2 ∧
      occupiedSlots st2 = 1 ∧
      (∀ e ∈ st2, e.btype ≠ 0 → e.addr = a &&& 0x1FFFFFFC) ∧
      (∀ x, a ≤ x → x < a + 4 → x ≠ a → x ≠ a + 2 →
        (z1InsertReply CODE_BREAK_REV_V1 st2 x).1 = "E00") := by
  obtain ⟨k, rfl⟩ : ∃ k, a = 4 * k := ⟨a / 4, by omega⟩
  have h1a : (4 * k) &&& 1 = 0 := land_one_even _ (by omega)
  have h1b : (4 * k + 2) &&& 1 = 0 := land_one_even _ (by omega)
  have h2a : (4 * k) &&& 2 = 0 := land_two_mul_four k
  have h2b : (4 * k + 2) &&& 2 = 2 := land_two_mul_four_add_two k
  have hfpb : (4 * k + 2) &&& 0x1FFFFFFC = (4 * k) &&& 0x1FFFFFFC :=
    fpb_addr_add_two (4 * k) (by omega)
  refine ⟨⟨(4 * k) &&& 0x1FFFFFFC, 1⟩ :: List.replicate n ⟨0, 0⟩,
          ⟨(4 * k) &&& 0x1FFFFFFC, 3⟩ :: List.replicate n ⟨0, 0⟩, ?_, ?_, ?_, ?_, ?_⟩
  · simp [updateCodeBreakpoint, CODE_BREAK_REV_V1, initBreaks, List.replicate_succ,
          findSlot, applyAt, h1a, h2a]
  · simp [updateCodeBreakpoint, CODE_BREAK_REV_V1, findSlot, applyAt, h1b, h2b, hfpb]
  · simp [occupiedSlots, List.countP_cons, occupiedSlots_replicate_free n]
  · intro e he hne
    rcases List.mem_cons.mp he with rfl | hmem
    · rfl
    · exact absurd rfl (by rw [List.eq_of_mem_replicate hmem] at hne; exact hne)
  · intro x hx1 hx2 hx3 hx4
    have hodd : x &&& 1 = 1 := by rw [Nat.and_one_is_mod]; omega
    simp [z1InsertReply, updateCodeBreakpoint, hodd]

/-- Witness for `c7_v1_one_slot` at a 6-slot table and `a = 0x08000124`. -/
theorem c7_witness :
    ∃ st1 st2 : List BpEntry,
      updateCodeBreakpoint CODE_BREAK_REV_V1 (initBreaks 6) 0x08000124 true = some st1 ∧
      updateCodeBreakpoint CODE_BREAK_REV_V1 st1 (0x08000124 + 2) true = some st2 ∧
      occupiedSlots st2 = 1 ∧
      (∀ e ∈ st2, e.btype ≠ 0 → e.addr = 0x08000124 &&& 0x1FFFFFFC) ∧
      (∀ x, 0x08000124 ≤ x → x < 0x08000124 + 4 → x ≠ 0x08000124 → x ≠ 0x08000124 + 2 →
        (z1InsertReply CODE_BREAK_REV_V1 st2 x).1 = "E00") :=
  c7_v1_one_slot 5 0x08000124 (by decide)

/-! ### Theorems about the semihosting trap loop and the halt-to-run paths -/

/-- Claim C1 (counterexample): when the target is found halted with
semihosting enabled at a word-aligned PC, the server passes length 4 (not 2)
to `stlink_read_mem32`; and with semihosting disabled it performs no
instruction read at all — both contradict "reads two or four bytes at
PC & ~3 (four bytes when PC%4 > 2)" for every halted case. -/
theorem c1_counterexample :
    (trapHalted true [] true (fun _ => 0) 0 0 0 (fun _ _ => 0)).1 = some 4 ∧
    (trapHalted false [] true (fun _ => 0) 0 0 0 (fun _ _ => 0)).1 = none ∧
    some (4 : Nat) ≠ some 2 := by
  refine ⟨rfl, rfl, by decide⟩

/-- Claim C1 (amended): in the halted branch of the continue trap loop, if
semihosting is disabled the server stops (replying `S05`) without reading any
instruction; if enabled it reads four or eight bytes at `PC - PC % 4` (eight
bytes when `PC % 4 > 2`), and it dispatches the semihosting call — writing
`dispatch r0 r1` into `r0` and `PC + 2` into the program counter, then
`cache_sync` and resume — if and only if the read succeeded, the half-word at
the PC offset is `0xBEAB`, and `has_breakpoint` is false at the aligned
address; in every other halted case it stops and replies `S05`. -/
theorem c1_amended (semih : Bool) (breaks : List BpEntry) (readOk : Bool)
    (mem : Nat → Nat) (r0 r1 pc : Nat) (dispatch : Nat → Nat → Nat) :
    (semih = false →
      trapHalted semih breaks readOk mem r0 r1 pc dispatch = (none, TrapOutcome.stop)) ∧
    (semih = true →
      (trapHalted semih breaks readOk mem r0 r1 pc dispatch).1 =
        some (if pc % 4 > 2 then 8 else 4)) ∧
    ((trapHalted semih breaks readOk mem r0 r1 pc dispatch).2 =
        TrapOutcome.service (dispatch r0 r1) (pc + 2) ↔
      semih = true ∧ readOk = true ∧ trapInsn mem pc = 0xBEAB ∧
        hasBreakpoint breaks (pc - pc % 4) = false) ∧
    ((trapHalted semih breaks readOk mem r0 r1 pc dispatch).2 = TrapOutcome.stop ∨
      (trapHalted semih breaks readOk mem r0 r1 pc dispatch).2 =
        TrapOutcome.service (dispatch r0 r1) (pc + 2)) := by
  cases semih with
  | false => simp [trapHalted]
  | true =>
    cases readOk with
    | false => simp [trapHalted]
    | true =>
      by_cases hc : trapInsn mem pc = 0xBEAB ∧ hasBreakpoint breaks (pc - pc % 4) = false
      · simp [trapHalted, hc]
      · simp only [trapHalted] at *
        simp [hc]

/-- Witness for `c1_amended`: at `pc = 6` the instruction read has length 4. -/
theorem c1_amended_witness :
    (trapHalted true [] true (fun _ => 0) 1 2 6 (fun a b => a + b)).1 = some 4 := by
  simpa using (c1_amended true [] true (fun _ => 0) 1 2 6 (fun a b => a + b)).2.1 rfl

theorem continueLoop_head (semih : Bool) (ps : List Poll) :
    ∀ e ∈ (continueLoop semih ps).head?, e = Ev.forceDebug ∨ e = Ev.statusPoll := by
  cases ps with
  | nil => intro e he; simp [continueLoop] at he
  | cons p ps =>
    intro e he
    rw [continueLoop] at he
    by_cases h1 : p.interrupt = true
    · simp [h1] at he; simp [he]
    · simp only [h1] at he
      by_cases h2 : p.halted = true
      · simp only [h2, if_true, Bool.false_eq_true, if_false] at he
        cases semih with
        | false => simp at he; simp [he]
        | true =>
          by_cases h3 : p.readOk = false
          · simp [h3] at he; simp [he]
          · by_cases h4 : p.isTrap = true
            · simp [h3, h4] at he; simp [he]
            · simp [h3, h4] at he; simp [he]
      · simp [h2] at he; simp [he]

theorem continueLoop_chain (semih : Bool) (ps : List Poll) :
    List.Chain' (fun x y => (y = Ev.run ∨ y = Ev.step) → x = Ev.cacheSync)
      (continueLoop semih ps) := by
  induction ps with
  | nil => simp [continueLoop]
  | cons p ps ih =>
    rw [continueLoop]
    by_cases h1 : p.interrupt = true
    · simp [h1]
    · simp only [h1, Bool.false_eq_true, if_false]
      by_cases h2 : p.halted = true
      · simp only [h2, if_true]
        cases semih with
        | false => simp
        | true =>
          by_cases h3 : p.readOk = false
          · simp [h3]
          · by_cases h4 : p.isTrap = true
            · simp only [h3, h4, Bool.true_eq_false, if_false, if_true]
              refine List.Chain'.cons (by decide) ?_
              refine List.Chain'.cons (by decide) ?_
              refine List.Chain'.cons (by decide) ?_
              refine List.Chain'.cons (by decide) ?_
              refine List.Chain'.cons (by decide) ?_
              refine List.Chain'.cons (by decide) ?_
              refine List.Chain'.cons (by decide) ?_
              refine List.chain'_cons'.mpr ⟨?_, ih⟩
              intro y hy
              intro hrun
              rcases continueLoop_head true ps y hy with rfl | rfl
              · rcases hrun with h | h <;> exact absurd h (by decide)
              · rcases hrun with h | h <;> exact absurd h (by decide)
            · simp [h3, h4]
      · simp only [h2, Bool.false_eq_true, if_false]
        refine List.chain'_cons'.mpr ⟨?_, ih⟩
        intro y hy
        intro hrun
        rcases continueLoop_head semih ps y hy with rfl | rfl
        · rcases hrun with h | h <;> exact absurd h (by decide)
        · rcases hrun with h | h <;> exact absurd h (by decide)

/-- Claim C5: `cache_sync` is invoked on every path that takes the target from
halted to running — the `s` (step) handler, the monitor `resume` handler, and
the `c` (continue) handler including the resume performed after servicing a
semihosting call: in each trace no run or step event comes first, and every
run or step event is immediately preceded by a cache_sync event. -/
theorem c5_cache_sync_guards_runs :
    resumeGuarded stepTrace ∧ resumeGuarded rcmdResumeTrace ∧
    ∀ semih ps, resumeGuarded (continueTrace semih ps) := by
  refine ⟨⟨?_, ?_⟩, ⟨?_, ?_⟩, ?_⟩
  · intro e he
    simp [stepTrace] at he
    subst he
    exact ⟨by decide, by decide⟩
  · exact List.chain'_cons.mpr ⟨fun _ => rfl, List.chain'_singleton _⟩
  · intro e he
    simp [rcmdResumeTrace] at he
    subst he
    exact ⟨by decide, by decide⟩
  · exact List.chain'_cons.mpr ⟨fun _ => rfl, List.chain'_singleton _⟩
  intro semih ps
  constructor
  · intro e he
    simp [continueTrace] at he
    subst he
    exact ⟨by decide, by decide⟩
  · rw [continueTrace]
    refine List.Chain'.cons (by decide) ?_
    refine List.chain'_cons'.mpr ⟨?_, continueLoop_chain semih ps⟩
    intro y hy
    intro hrun
    rcases continueLoop_head semih ps y hy with rfl | rfl
    · rcases hrun with h | h <;> exact absurd h (by decide)
    · rcases hrun with h | h <;> exact absurd h (by decide)

/-- Witness for `c5_cache_sync_guards_runs` on a trace that services one
semihosting trap. -/
theorem c5_witness :
    resumeGuarded (continueTrace true [⟨false, true, true, true⟩]) :=
  c5_cache_sync_guards_runs.2.2 true [⟨false, true, true, true⟩]

/-! ### Theorems about flash staging -/

/-- Claim C3 (code evaluated at the failing input): one staged block
`[100, 104)` and a `vFlashWrite` payload `[1..8]` at address 96: the block's
intersection `[100, 104)` should receive the payload bytes at offset
`max(a,X) - a = 4`, i.e. `[5, 6, 7, 8]`, but the code's `memcpy` reads from
payload offset 0 and stores `[1, 2, 3, 4]`. -/
theorem c3_code_eval :
    flashPopulate 96 [1, 2, 3, 4, 5, 6, 7, 8] [⟨100, 4, [9, 9, 9, 9]⟩] =
      some [⟨100, 4, [1, 2, 3, 4]⟩] ∧
    (specPopulateBlock 96 [1, 2, 3, 4, 5, 6, 7, 8] ⟨100, 4, [9, 9, 9, 9]⟩).data
      = [5, 6, 7, 8] ∧
    ([1, 2, 3, 4] : List Nat) ≠ [5, 6, 7, 8] := by
  refine ⟨by decide, by decide, by decide⟩

/-- Claim C6: after every `vFlashDone` command — whatever the outcomes of the
erase, loader-start and loader-write primitives — the staging list is empty,
and the reply is `OK` or `E08`. -/
theorem c6_staging_cleared (p : FlashProbe) (root : List FlashBlock) :
    (flashDoneReply p root).2 = [] ∧
    ((flashDoneReply p root).1 = "OK" ∨ (flashDoneReply p root).1 = "E08") := by
  constructor
  · rfl
  · rw [flashDoneReply]
    cases (flashGo p root).1 with
    | false => right; rfl
    | true => left; rfl

/-- Witness for `c6_staging_cleared` at a concrete probe and staging list. -/
theorem c6_witness :
    (flashDoneReply ⟨fun _ => false, true, fun _ => true, fun _ => 1024⟩
        [⟨0x08000000, 1024, List.replicate 1024 0⟩]).2 = [] ∧
    ((flashDoneReply ⟨fun _ => false, true, fun _ => true, fun _ => 1024⟩
        [⟨0x08000000, 1024, List.replicate 1024 0⟩]).1 = "OK" ∨
      (flashDoneReply ⟨fun _ => false, true, fun _ => true, fun _ => 1024⟩
        [⟨0x08000000, 1024, List.replicate 1024 0⟩]).1 = "E08") :=
  c6_staging_cleared ⟨fun _ => false, true, fun _ => true, fun _ => 1024⟩
    [⟨0x08000000, 1024, List.replicate 1024 0⟩]

/-! ### Theorems about qXfer chunking -/

/-- Claim C4 (counterexample): for the three-byte document `[10, 20, 30]`,
the request `addr = 1, len = 1` should return the slice `[20]` but the code
replies `m` followed by `[10]` (the copy starts at the document base); and
the request `addr = 0, len = 3`, whose slice reaches the end of the document,
is prefixed `m`, not `l`. -/
theorem c4_counterexample :
    qXferReply [10, 20, 30] 1 1 = [0x6d, 10] ∧
    ([0x6d, 10] : List Nat) ≠ [0x6d, 20] ∧
    qXferReply [10, 20, 30] 0 3 = [0x6d, 10, 20, 30] := by
  refine ⟨by decide, by decide, by decide⟩

/-- Claim C4 (amended): for every `qXfer:memory-map:read` or
`qXfer:features:read` request with 32-bit offset `addr <= doclen` and length
`len`, the reply is a bare `l` when `min(len, doclen - addr) = 0`, and
otherwise `m` followed by the FIRST `min(len, doclen - addr)` bytes of the
document (the requested offset is ignored by the copy). -/
theorem c4_amended (doc : List Nat) (addr len : Nat) (h1 : addr ≤ doc.length)
    (h2 : doc.length < 2 ^ 32) (h3 : addr + len < 2 ^ 32) :
    qXferReply doc addr len =
      if min len (doc.length - addr) = 0 then [0x6c]
      else 0x6d :: doc.take (min len (doc.length - addr)) := by
  simp only [qXferReply]
  have hmod : (addr + len) % 2 ^ 32 = addr + len := Nat.mod_eq_of_lt h3
  rw [hmod]
  by_cases hgt : addr + len > doc.length
  · have hmod2 : (doc.length + 2 ^ 32 - addr) % 2 ^ 32 = doc.length - addr := by
      have he : doc.length + 2 ^ 32 - addr = 2 ^ 32 + (doc.length - addr) := by omega
      rw [he, Nat.add_mod_left, Nat.mod_eq_of_lt (by omega)]
    rw [if_pos hgt, hmod2]
    have hmin : min len (doc.length - addr) = doc.length - addr := by omega
    rw [hmin]
  · rw [if_neg hgt]
    have hmin : min len (doc.length - addr) = len := by omega
    rw [hmin]

/-- Witness for `c4_amended` at an over-long request. -/
theorem c4_amended_witness : qXferReply [10, 20, 30] 1 5 = [0x6d, 10, 20] := by
  have h := c4_amended [10, 20, 30] 1 5 (by decide) (by decide) (by decide)
  simpa using h

/-! ### Theorems about the vFlashWrite un-escape loop -/

theorem unescape_isSome_of (n : Nat) : ∀ xs : List Nat, xs.length ≤ n →
    xs.getLast? ≠ some 0x7d → (unescape xs).isSome = true := by
  induction n with
  | zero =>
    intro xs hl _
    have hnil : xs = [] := List.length_eq_zero.mp (by omega)
    subst hnil
    rfl
  | succ n ih =>
    intro xs hl h
    match xs with
    | [] => rfl
    | [b] =>
      have hb : b ≠ 0x7d := by simpa using h
      simp [unescape, hb]
    | b :: c :: rest =>
      by_cases hb : b = 0x7d
      · cases rest with
        | nil => simp [unescape, hb]
        | cons d rest2 =>
          have hlen : (d :: rest2).length ≤ n := by
            simp only [List.length_cons] at hl ⊢
            omega
          have hlast : (d :: rest2).getLast? ≠ some 0x7d := by
            rwa [List.getLast?_cons_cons, List.getLast?_cons_cons] at h
          have hres := ih (d :: rest2) hlen hlast
          cases hu : unescape (d :: rest2) with
          | none => rw [hu] at hres; exact absurd hres (by decide)
          | some ds => simp [unescape, hb, hu]
      · have hlen : (c :: rest).length ≤ n := by
          simp only [List.length_cons] at hl ⊢
          omega
        have hlast : (c :: rest).getLast? ≠ some 0x7d := by
          rwa [List.getLast?_cons_cons] at h
        have hres := ih (c :: rest) hlen hlast
        cases hu : unescape (c :: rest) with
        | none => rw [hu] at hres; exact absurd hres (by decide)
        | some ds => simp [unescape, hb, hu]

/-- Claim C10: for every `vFlashWrite` binary payload in which the escape
byte `0x7d` does not occur as the final byte, the un-escape loop reads only
indices within the payload bounds: the total embedding (which returns `none`
exactly when the loop would read index `data_length`) returns `some`. -/
theorem c10_unescape_in_bounds (xs : List Nat) (h : xs.getLast? ≠ some 0x7d) :
    (unescape xs).isSome = true :=
  unescape_isSome_of xs.length xs (Nat.le_refl _) h

/-- Witness for `c10_unescape_in_bounds` on a payload with an inner escape. -/
theorem c10_witness : (unescape [1, 0x7d, 2, 3]).isSome = true :=
  c10_unescape_in_bounds [1, 0x7d, 2, 3] (by decide)

/-! ### Theorems about the per-command probe-failure policy -/

/-- Claim C9 (counterexample): a failing `stlink_write_reg` inside the `P`
handler (register 0) is replied with `OK`, not `E00` — the failure is only
logged; the session continues. -/
theorem c9_counterexample :
    (handlePacketP false 0).1 = "OK" ∧ (handlePacketP false 0).1 ≠ "E00" ∧
    (handlePacketP false 0).2 = false := by
  refine ⟨by decide, by decide, by decide⟩

/-- Claim C9 (amended): probe failures while handling a command never set the
critical flag except in the `s` (step) handler — in the source,
`critical_error` is assigned only in the `s` arm of `serve` — so the session
loop continues; but the reply on a probe failure is not uniformly `E00`: the
`M` handler and the monitor `resume`, `halt` and `reset` handlers reply
`E00`, while `g`, `p` (in-range id), `P` (in-range id), `G`, `R` and `c`
reply their normal reply with the failure only logged, and `m` replies an
empty payload; only a step failure replies `E00` with the critical flag set,
which closes the session. -/
theorem c9_amended :
    (∀ ok reg, (handlePacketP ok reg).2 = false) ∧
    (∀ oks, (handlePacketG oks).2 = false) ∧
    (∀ ok, (handlePacketR ok).2 = false) ∧
    (∀ e, (handlePacketM e).2 = false) ∧
    (∀ ok, (handlePacketC ok).2 = false) ∧
    (∀ ok pl, (handlePacketMemRead ok pl).2 = false) ∧
    (∀ ok, (rcmdResumeReply ok).2 = false) ∧
    (∀ ok, (rcmdHaltReply ok).2 = false) ∧
    (∀ f r, (rcmdResetReply f r).2 = false) ∧
    (∀ ok regs, (handlePacketGRead ok regs).2 = false) ∧
    (∀ ok reg v, (handlePacketPRead ok reg v).2 = false) ∧
    handleStep false = ("E00", true) ∧
    handleStep true = ("S05", false) ∧
    handlePacketM true = ("E00", false) ∧
    rcmdResumeReply false = ("E00", false) ∧
    rcmdHaltReply false = ("E00", false) ∧
    (∀ f r, (rcmdResetReply f r).1 = "E00" ↔ (f && r) = false) ∧
    handlePacketP false 3 = ("OK", false) ∧
    (∀ oks, (handlePacketG oks).1 = "OK") ∧
    (∀ ok, handlePacketR ok = ("OK", false)) ∧
    (∀ ok, handlePacketC ok = ("S05", false)) ∧
    (∀ regs, handlePacketGRead false regs = (regs, false)) ∧
    (∀ v, handlePacketPRead false 5 v = (some v, false)) ∧
    (∀ pl, handlePacketMemRead false pl = ([], false)) := by
  refine ⟨?_, ?_, ?_, ?_, ?_, ?_, ?_, ?_, ?_, ?_, ?_,
    rfl, rfl, rfl, rfl, rfl, ?_, rfl, ?_, ?_, ?_, ?_, ?_, ?_⟩
  · intro ok reg
    unfold handlePacketP
    split <;> rfl
  · intro oks; rfl
  · intro ok; rfl
  · intro e; rfl
  · intro ok; rfl
  · intro ok pl; rfl
  · intro ok; rfl
  · intro ok; rfl
  · intro f r; rfl
  · intro ok regs; rfl
  · intro ok reg v
    unfold handlePacketPRead
    split <;> rfl
  · intro f r
    cases f <;> cases r <;> simp [rcmdResetReply]
  · intro oks; rfl
  · intro ok; rfl
  · intro ok; rfl
  · intro regs; rfl
  · intro v; rfl
  · intro pl; rfl

/-- Witness for `c9_amended` at a concrete register write. -/
theorem c9_amended_witness : (handlePacketP false 7).2 = false :=
  c9_amended.1 false 7
